import Mathlib

/-!
Verification development for the terminal raw-mode fragment of kilo.c.

The embedding models the C program faithfully, targeting the usual
Linux/x86-64 ABI: `char` is signed 8 bits, `tcflag_t` is a 32-bit unsigned
integer, and the termios flag constants and `c_cc` indices take their
Linux (asm-generic/termbits.h via glibc) values.  OS calls (tcgetattr,
tcsetattr, read) are modelled by oracle outcomes threaded through an
explicit machine state; `atexit` is modelled by a `registered` flag that
makes process exit run the restoration handler.
-/

/-- Model of `struct termios`: the four flag words are 32-bit unsigned
integers modelled as `Nat`, and `c_cc` is the control-character array
(glibc `NCCS = 32`) modelled as a list of bytes. -/
structure Termios where
  c_iflag : Nat
  c_oflag : Nat
  c_cflag : Nat
  c_lflag : Nat
  c_cc : List Nat
deriving DecidableEq, Repr

/-- Well-formedness of a termios value: flag words fit in 32 bits and the
control-character array has its `NCCS` entries. -/
def Termios.wf (t : Termios) : Prop :=
  t.c_iflag < 2 ^ 32 ∧ t.c_oflag < 2 ^ 32 ∧ t.c_cflag < 2 ^ 32 ∧
    t.c_lflag < 2 ^ 32 ∧ t.c_cc.length = 32

instance (t : Termios) : Decidable t.wf := by
  unfold Termios.wf; infer_instance

/- Linux termios constants (asm-generic/termbits.h). -/
def BRKINT : Nat := 2
def ICRNL : Nat := 256
def INPCK : Nat := 16
def ISTRIP : Nat := 32
def IXON : Nat := 1024
def OPOST : Nat := 1
def CS8 : Nat := 48
def ECHO : Nat := 8
def ICANON : Nat := 2
def IEXTEN : Nat := 32768
def ISIG : Nat := 1
def VTIME : Nat := 5
def VMIN : Nat := 6

/-- All-ones 32-bit mask; `bitnot m` is the C `~m` on a 32-bit flag word. -/
def mask32 : Nat := 2 ^ 32 - 1

def bitnot (m : Nat) : Nat := mask32 ^^^ m

/-- The raw-attribute derivation performed in `enableRawMode` on the local
copy `raw` of `orig_termios` (kilo.c lines 44-89):
`raw.c_iflag &= ~(BRKINT | ICRNL | INPCK | ISTRIP | IXON);`
`raw.c_oflag &= ~(OPOST);`  `raw.c_cflag |= (CS8);`
`raw.c_lflag &= ~(ECHO | ICANON | IEXTEN | ISIG);`
`raw.c_cc[VMIN] = 0;`  `raw.c_cc[VTIME] = 1;` -/
def rawOf (t : Termios) : Termios :=
  { c_iflag := t.c_iflag &&& bitnot (BRKINT ||| ICRNL ||| INPCK ||| ISTRIP ||| IXON)
    c_oflag := t.c_oflag &&& bitnot OPOST
    c_cflag := t.c_cflag ||| CS8
    c_lflag := t.c_lflag &&& bitnot (ECHO ||| ICANON ||| IEXTEN ||| ISIG)
    c_cc := (t.c_cc.set VMIN 0).set VTIME 1 }

/-- C `char` value obtained by storing byte `b` in a signed 8-bit `char`
(the x86-64 Linux ABI) and promoting it to `int`: bytes at or above 0x80
become negative. -/
def charOfByte (b : Nat) : Int :=
  if b % 256 < 128 then (b % 256 : Int) else (b % 256 : Int) - 256

/-- glibc `iscntrl` in the C locale, on `int` values that arise from a
(possibly signed) `char`: true exactly for 0..31 and 127; bytes 0x80..0xff
(negative after signed-char conversion) carry no class bits. -/
def iscntrl (c : Int) : Bool :=
  (0 ≤ c && c ≤ 31) || c == 127

/-- The ASCII apostrophe, kept as a named character for line formatting. -/
def quoteChar : Char := Char.ofNat 39

/-- The line the loop body prints for the char value read into `c`
(kilo.c lines 104-110): `printf("%d\r\n", c)` for control characters,
otherwise `printf("%d (\x27%c\x27)\r\n", c, c)`; `%c` emits the raw byte
`(unsigned char) c`. -/
def formatLine (b : Nat) : String :=
  if iscntrl (charOfByte b) then
    toString (charOfByte b) ++ "\r\n"
  else
    toString (charOfByte b) ++ " (" ++
      String.mk [quoteChar, Char.ofNat (b % 256), quoteChar] ++ ")\r\n"

/-- Outcome of one `read(STDIN_FILENO, &c, 1)` call, as delivered by the
OS oracle: a byte arrived, the VTIME timeout elapsed (return 0), a
transient try-again failure (return -1 with errno = EAGAIN), or any other
failure (return -1 with errno different from EAGAIN). -/
inductive ReadEvent where
  | byte (b : Nat)
  | timeout
  | eagain
  | fatal
deriving DecidableEq, Repr

/-- Whether the process is still executing or has exited with a status. -/
inductive ProcStatus where
  | running
  | exited (code : Nat)
deriving DecidableEq, Repr

/-- Machine state: the global `orig_termios`, the live device
configuration, the oracle bit telling whether the restoring `tcsetattr`
in `disableRawMode` succeeds, whether `atexit(disableRawMode)` has been
registered, the stdout lines printed so far, the perror contexts printed
to stderr so far, and the process status. -/
structure MState where
  orig_termios : Termios
  device : Termios
  restoreOk : Bool
  registered : Bool
  out : List String
  err : List String
  status : ProcStatus
deriving DecidableEq, Repr

/-- A C global `struct termios` is zero-initialized. -/
def termios0 : Termios :=
  { c_iflag := 0, c_oflag := 0, c_cflag := 0, c_lflag := 0, c_cc := List.replicate 32 0 }

/-- State at process start, given the device's initial configuration and
the restore-call oracle bit. -/
def initState (dev : Termios) (restoreOk : Bool) : MState :=
  { orig_termios := termios0, device := dev, restoreOk := restoreOk,
    registered := false, out := [], err := [], status := .running }

/-- `exit(code)`: if `atexit(disableRawMode)` was registered, the handler
runs first; on success it writes `orig_termios` back to the device, and on
failure it is `die("tcsetattr")`, whose own `exit(1)` determines the final
status (the nested exit does not rerun handlers). -/
def procExit (code : Nat) (s : MState) : MState :=
  if s.registered then
    if s.restoreOk then
      { s with device := s.orig_termios, status := .exited code }
    else
      { s with err := s.err ++ ["tcsetattr"], status := .exited 1 }
  else
    { s with status := .exited code }

/-- `die(s)` (kilo.c lines 17-24): `perror(s)` prints the context to
stderr, then `exit(1)`. -/
def die (context : String) (s : MState) : MState :=
  procExit 1 { s with err := s.err ++ [context] }

/-- `disableRawMode` (kilo.c lines 30-36): `tcsetattr(STDIN_FILENO,
TCSAFLUSH, &orig_termios)`, and `die("tcsetattr")` if that fails. -/
def disableRawMode (s : MState) : MState :=
  if s.restoreOk then { s with device := s.orig_termios }
  else die "tcsetattr" s

/-- `enableRawMode` (kilo.c lines 38-91): `tcgetattr` captures the device
configuration into `orig_termios` (on failure, `die("tcsgetattr")`);
`atexit(disableRawMode)` registers the restore handler; the raw attributes
are derived on a local copy; the final `tcsetattr(STDIN_FILENO, TCSAFLUSH,
&raw)` is issued with its result unchecked, so on failure the device is
simply left unchanged and execution continues. -/
def enableRawMode (getOk setOk : Bool) (s : MState) : MState :=
  if getOk then
    let s1 := { s with orig_termios := s.device, registered := true }
    let raw := rawOf s1.orig_termios
    if setOk then { s1 with device := raw } else s1
  else
    die "tcsgetattr" s

/-- One iteration of the `while (1)` loop in `main` (kilo.c lines 98-112),
consuming one read outcome: `char c = 0` each iteration; a failed read
with errno other than EAGAIN is `die("read")`; otherwise the (possibly
unmodified, hence zero) char is printed via `formatLine`, and if it equals
113, the code of the letter q, the loop breaks and `main` returns 0.
After the process has exited the remaining oracle events are ignored. -/
def loopStep (s : MState) (ev : ReadEvent) : MState :=
  match s.status with
  | .exited _ => s
  | .running =>
    match ev with
    | .fatal => die "read" s
    | .timeout =>
      let s1 := { s with out := s.out ++ [formatLine 0] }
      if charOfByte 0 == 113 then procExit 0 s1 else s1
    | .eagain =>
      let s1 := { s with out := s.out ++ [formatLine 0] }
      if charOfByte 0 == 113 then procExit 0 s1 else s1
    | .byte b =>
      let s1 := { s with out := s.out ++ [formatLine b] }
      if charOfByte b == 113 then procExit 0 s1 else s1

/-- A complete run of the process: the initial device configuration, the
oracle outcomes of the two configuration calls in `enableRawMode`, the
restore-call oracle, and the oracle list of read outcomes. -/
structure World where
  dev : Termios
  getOk : Bool
  setOk : Bool
  restoreOk : Bool
  events : List ReadEvent
deriving Repr

/-- `main` (kilo.c lines 95-114): `enableRawMode()` then the read loop,
driven by the world's oracle events.  If the event list is exhausted with
the status still `running`, the process has not exited yet. -/
def mainRun (w : World) : MState :=
  w.events.foldl loopStep (enableRawMode w.getOk w.setOk (initState w.dev w.restoreOk))

/-- A sample initial device configuration, used only in witnesses. -/
def sampleT : Termios :=
  { c_iflag := 0x4500, c_oflag := 0x5, c_cflag := 0xbf, c_lflag := 0x8a3b,
    c_cc := List.replicate 32 3 }

/-! ### General lemmas about the machine -/

/-- An exited process ignores a further read event. -/
lemma loopStep_exited (s : MState) (ev : ReadEvent) (c : Nat) (h : s.status = .exited c) :
    loopStep s ev = s := by
  simp [loopStep, h]

/-- An exited process ignores all further read events. -/
lemma foldl_loopStep_exited (l : List ReadEvent) (s : MState) (c : Nat)
    (h : s.status = .exited c) : l.foldl loopStep s = s := by
  induction l with
  | nil => rfl
  | cons ev l ih => rw [List.foldl_cons, loopStep_exited s ev c h]; exact ih

/-- The `c == 'q'` test succeeds exactly when the delivered byte is
0x71 modulo the 8-bit store. -/
lemma charOfByte_eq_113_iff (b : Nat) : charOfByte b = 113 ↔ b % 256 = 113 := by
  unfold charOfByte
  split_ifs <;> omega

/-- Process exit never touches the stdout lines. -/
lemma procExit_out (code : Nat) (s : MState) : (procExit code s).out = s.out := by
  unfold procExit; split_ifs <;> rfl

/-- When the restoring apply succeeds, process exit keeps the requested
status code. -/
lemma procExit_status (code : Nat) (s : MState) (hr : s.restoreOk = true) :
    (procExit code s).status = .exited code := by
  unfold procExit; split_ifs <;> simp_all

/-- When the restoring apply succeeds, process exit prints no further
diagnostic. -/
lemma procExit_err (code : Nat) (s : MState) (hr : s.restoreOk = true) :
    (procExit code s).err = s.err := by
  unfold procExit; split_ifs <;> simp_all

/-- Process exit never touches the restore-call oracle bit. -/
lemma procExit_restoreOk (code : Nat) (s : MState) : (procExit code s).restoreOk = s.restoreOk := by
  unfold procExit; split_ifs <;> rfl

/-- When the handler is registered and the restoring apply succeeds,
process exit writes `orig_termios` back to the device. -/
lemma procExit_device (code : Nat) (s : MState) (hreg : s.registered = true)
    (hr : s.restoreOk = true) : (procExit code s).device = s.orig_termios := by
  unfold procExit; simp [hreg, hr]

/-- Invariant carried by every state of a run whose restoring apply
succeeds: while running, the handler is registered and `orig_termios`
holds the baseline; once exited, the device holds the baseline. -/
def restoredInv (dev : Termios) (s : MState) : Prop :=
  s.restoreOk = true ∧
    ((s.status = .running ∧ s.registered = true ∧ s.orig_termios = dev) ∨
      (∃ c, s.status = .exited c ∧ s.device = dev))

/-- One loop iteration preserves the restoration invariant. -/
lemma loopStep_restoredInv (dev : Termios) (s : MState) (ev : ReadEvent)
    (h : restoredInv dev s) : restoredInv dev (loopStep s ev) := by
  obtain ⟨hr, hcase⟩ := h
  rcases hcase with ⟨hst, hreg, horig⟩ | ⟨c, hst, hdev⟩
  · have h0 : (charOfByte 0 == 113) = false := by decide
    cases ev with
    | fatal =>
      have hstep : loopStep s .fatal = procExit 1 { s with err := s.err ++ ["read"] } := by
        simp [loopStep, hst, die]
      rw [hstep]
      refine ⟨by rw [procExit_restoreOk]; exact hr, Or.inr ⟨1, ?_, ?_⟩⟩
      · exact procExit_status 1 _ (by simpa using hr)
      · rw [procExit_device 1 _ (by simpa using hreg) (by simpa using hr)]
        simpa using horig
    | timeout =>
      have hstep : loopStep s .timeout = { s with out := s.out ++ [formatLine 0] } := by
        simp [loopStep, hst, h0]
      rw [hstep]
      exact ⟨by simpa using hr, Or.inl ⟨by simpa using hst, by simpa using hreg, by simpa using horig⟩⟩
    | eagain =>
      have hstep : loopStep s .eagain = { s with out := s.out ++ [formatLine 0] } := by
        simp [loopStep, hst, h0]
      rw [hstep]
      exact ⟨by simpa using hr, Or.inl ⟨by simpa using hst, by simpa using hreg, by simpa using horig⟩⟩
    | byte b =>
      by_cases hq : (charOfByte b == 113) = true
      · have hstep : loopStep s (.byte b) =
            procExit 0 { s with out := s.out ++ [formatLine b] } := by
          simp [loopStep, hst, hq]
        rw [hstep]
        refine ⟨by rw [procExit_restoreOk]; exact hr, Or.inr ⟨0, ?_, ?_⟩⟩
        · exact procExit_status 0 _ (by simpa using hr)
        · rw [procExit_device 0 _ (by simpa using hreg) (by simpa using hr)]
          simpa using horig
      · have hstep : loopStep s (.byte b) = { s with out := s.out ++ [formatLine b] } := by
          simp [loopStep, hst, hq]
        rw [hstep]
        exact ⟨by simpa using hr, Or.inl ⟨by simpa using hst, by simpa using hreg, by simpa using horig⟩⟩
  · rw [loopStep_exited s ev c hst]
    exact ⟨hr, Or.inr ⟨c, hst, hdev⟩⟩

/-- The whole read loop preserves the restoration invariant. -/
lemma foldl_restoredInv (dev : Termios) (events : List ReadEvent) (s : MState)
    (h : restoredInv dev s) : restoredInv dev (events.foldl loopStep s) := by
  induction events generalizing s with
  | nil => exact h
  | cons ev l ih => exact ih _ (loopStep_restoredInv dev s ev h)

/-- `enableRawMode` establishes the restoration invariant (also on the
failed-query path, where the process exits before any mutation). -/
lemma enable_restoredInv (dev : Termios) (getOk setOk restoreOk : Bool)
    (hr : restoreOk = true) :
    restoredInv dev (enableRawMode getOk setOk (initState dev restoreOk)) := by
  subst hr
  cases getOk with
  | true =>
    cases setOk <;>
      exact ⟨rfl, Or.inl ⟨rfl, rfl, rfl⟩⟩
  | false =>
    refine ⟨?_, Or.inr ⟨1, ?_, ?_⟩⟩ <;>
      simp [enableRawMode, initState, die, procExit]

/-- Claim C1: on every exit path of the process — normal termination
after reading byte 0x71, exit through `die` on a fatal read error, and
the pre-registration exit on a failed baseline query — provided the
restoring apply at exit succeeds, the device configuration at process
exit equals the baseline configuration the device had when the run
started, which is what `enableRawMode` captures; the program never exits
with the device left in raw mode. -/
theorem device_restored_on_every_exit (w : World) (hr : w.restoreOk = true) (c : Nat)
    (hx : (mainRun w).status = .exited c) : (mainRun w).device = w.dev := by
  have hinv : restoredInv w.dev (mainRun w) :=
    foldl_restoredInv w.dev w.events _ (enable_restoredInv w.dev w.getOk w.setOk w.restoreOk hr)
  obtain ⟨_, hcase⟩ := hinv
  rcases hcase with ⟨hst, _, _⟩ | ⟨c2, _, hdev⟩
  · rw [hst] at hx; exact absurd hx (by simp)
  · exact hdev

/-- Witness for C1: a concrete run ending in the normal exit. -/
theorem device_restored_on_every_exit_witness :
    (mainRun ⟨sampleT, true, true, true, [ReadEvent.byte 113]⟩).device = sampleT :=
  device_restored_on_every_exit ⟨sampleT, true, true, true, [ReadEvent.byte 113]⟩ rfl 0 (by decide)

/-- Claim C4 counterexample: a run in which the single read attempt
yields NoDataYet (a timed-out read) emits the line "0\r\n", so the claim
that such runs produce no output at all is false. -/
theorem nodata_silent_cex :
    (mainRun ⟨sampleT, true, true, true, [ReadEvent.timeout]⟩).out = ["0\r\n"] ∧
    (mainRun ⟨sampleT, true, true, true, [ReadEvent.timeout]⟩).out ≠ [] := by
  decide

/-- Under NoDataYet-only events the loop keeps running and appends one
"0\r\n"-line per attempt. -/
lemma foldl_nodata (events : List ReadEvent) :
    ∀ s : MState, s.status = .running →
      (∀ ev ∈ events, ev = ReadEvent.timeout ∨ ev = ReadEvent.eagain) →
      (events.foldl loopStep s).status = .running ∧
        (events.foldl loopStep s).out = s.out ++ List.replicate events.length (formatLine 0) := by
  induction events with
  | nil => intro s h _; simp [h]
  | cons ev l ih =>
    intro s h hev
    have h0 : (charOfByte 0 == 113) = false := by decide
    have hstep : loopStep s ev = { s with out := s.out ++ [formatLine 0] } := by
      rcases hev ev (by simp) with rfl | rfl
      · simp [loopStep, h, h0]
      · simp [loopStep, h, h0]
    rw [List.foldl_cons, hstep]
    obtain ⟨h1, h2⟩ := ih { s with out := s.out ++ [formatLine 0] } h
      (fun e hm => hev e (List.mem_cons_of_mem _ hm))
    refine ⟨h1, ?_⟩
    rw [h2]
    simp [List.replicate_succ]

/-- Claim C4 amended: when every read attempt yields NoDataYet (timeout
or the transient try-again condition), the loop does not terminate on its
own, but it is not silent: each iteration leaves the char at its zero
initialization, classifies it as a control character, and prints the line
"0\r\n". -/
theorem nodata_prints_zero_per_attempt (dev : Termios) (setOk restoreOk : Bool)
    (events : List ReadEvent)
    (hev : ∀ ev ∈ events, ev = ReadEvent.timeout ∨ ev = ReadEvent.eagain) :
    (mainRun ⟨dev, true, setOk, restoreOk, events⟩).status = .running ∧
    (mainRun ⟨dev, true, setOk, restoreOk, events⟩).out =
      List.replicate events.length "0\r\n" := by
  have hs : (enableRawMode true setOk (initState dev restoreOk)).status = .running := by
    cases setOk <;> rfl
  have hout : (enableRawMode true setOk (initState dev restoreOk)).out = [] := by
    cases setOk <;> rfl
  have hf0 : formatLine 0 = "0\r\n" := by decide
  obtain ⟨h1, h2⟩ := foldl_nodata events _ hs hev
  refine ⟨h1, ?_⟩
  show (events.foldl loopStep (enableRawMode true setOk (initState dev restoreOk))).out = _
  rw [h2, hout, hf0]
  simp

/-- Witness for C4 amended at a concrete NoDataYet-only run. -/
theorem nodata_prints_zero_per_attempt_witness :
    (mainRun ⟨sampleT, true, true, true, [ReadEvent.timeout, ReadEvent.eagain]⟩).status =
      .running ∧
    (mainRun ⟨sampleT, true, true, true, [ReadEvent.timeout, ReadEvent.eagain]⟩).out =
      List.replicate 2 "0\r\n" :=
  nodata_prints_zero_per_attempt sampleT true true [ReadEvent.timeout, ReadEvent.eagain]
    (by decide)

/-- With no fatal read outcome and no byte 0x71, the loop consumes every
event and is still running. -/
lemma foldl_no_quit (events : List ReadEvent) :
    ∀ s : MState, s.status = .running →
      (∀ b, ReadEvent.byte b ∈ events → b < 256 ∧ b ≠ 113) →
      ReadEvent.fatal ∉ events →
      (events.foldl loopStep s).status = .running := by
  induction events with
  | nil => intro s h _ _; simpa using h
  | cons ev l ih =>
    intro s h hev hfa
    have h0 : (charOfByte 0 == 113) = false := by decide
    cases ev with
    | fatal => exact absurd (by simp) hfa
    | timeout =>
      have hstep : loopStep s .timeout = { s with out := s.out ++ [formatLine 0] } := by
        simp [loopStep, h, h0]
      rw [List.foldl_cons, hstep]
      exact ih _ h (fun b hm => hev b (by simp [hm])) (fun hm => hfa (by simp [hm]))
    | eagain =>
      have hstep : loopStep s .eagain = { s with out := s.out ++ [formatLine 0] } := by
        simp [loopStep, h, h0]
      rw [List.foldl_cons, hstep]
      exact ih _ h (fun b hm => hev b (by simp [hm])) (fun hm => hfa (by simp [hm]))
    | byte b =>
      obtain ⟨hb, hbn⟩ := hev b (by simp)
      have hq : (charOfByte b == 113) = false := by
        rw [beq_eq_false_iff_ne, Ne, charOfByte_eq_113_iff]
        omega
      have hstep : loopStep s (.byte b) = { s with out := s.out ++ [formatLine b] } := by
        simp [loopStep, h, hq]
      rw [List.foldl_cons, hstep]
      exact ih _ h (fun b2 hm => hev b2 (by simp [hm])) (fun hm => hfa (by simp [hm]))

/-- Claim C8: for every sequence of read outcomes delivering no byte
0x71 and no fatal read failure, the loop never stops: after consuming the
whole sequence the process is still running, so the only content-driven
termination is byte 0x71 and the only other stop is a fatal read
error. -/
theorem no_quit_byte_never_stops (dev : Termios) (setOk restoreOk : Bool)
    (events : List ReadEvent)
    (hev : ∀ b, ReadEvent.byte b ∈ events → b < 256 ∧ b ≠ 113)
    (hfa : ReadEvent.fatal ∉ events) :
    (mainRun ⟨dev, true, setOk, restoreOk, events⟩).status = .running := by
  have hs : (enableRawMode true setOk (initState dev restoreOk)).status = .running := by
    cases setOk <;> rfl
  exact foldl_no_quit events _ hs hev hfa

/-- Witness for C8 at a concrete q-free event sequence. -/
theorem no_quit_byte_never_stops_witness :
    (mainRun ⟨sampleT, true, true, true,
      [ReadEvent.byte 65, ReadEvent.timeout, ReadEvent.byte 3]⟩).status = .running :=
  no_quit_byte_never_stops sampleT true true
    [ReadEvent.byte 65, ReadEvent.timeout, ReadEvent.byte 3]
    (by intro b hm; simp at hm; rcases hm with rfl | rfl <;> omega) (by decide)

/-- Claim C2: entering raw mode and then exiting it, with the baseline
query, the raw apply and the restoring apply all succeeding, returns the
device to the configuration it had immediately before entering raw
mode. -/
theorem enter_then_exit_restores_device (dev : Termios) (getOk setOk restoreOk : Bool)
    (hg : getOk = true) (hs : setOk = true) (hr : restoreOk = true) :
    (disableRawMode (enableRawMode getOk setOk (initState dev restoreOk))).device = dev := by
  subst hg; subst hs; subst hr
  simp [enableRawMode, disableRawMode, initState]

/-- Witness for C2 at a concrete device configuration. -/
theorem enter_then_exit_restores_device_witness :
    (disableRawMode (enableRawMode true true (initState sampleT true))).device = sampleT :=
  enter_then_exit_restores_device sampleT true true true rfl rfl rfl

/-- Claim C3 counterexample: a run in which the OS-level apply of the raw
attributes fails (`setOk = false`) while everything else succeeds; the
process prints no diagnostic and exits with status 0, so the apply
failure never reaches `die` and never produces a non-zero status. -/
theorem raw_apply_failure_cex :
    (mainRun ⟨sampleT, true, false, true, [ReadEvent.byte 113]⟩).err = [] ∧
    (mainRun ⟨sampleT, true, false, true, [ReadEvent.byte 113]⟩).status = .exited 0 := by
  decide

/-- Claim C3 amended: the result of the `tcsetattr` that applies the raw
attributes is not checked, so when that apply fails `enableRawMode`
returns normally with no diagnostic, the process is not terminated, and
the device configuration is left unchanged. -/
theorem raw_apply_failure_ignored (dev : Termios) (restoreOk : Bool) :
    (enableRawMode true false (initState dev restoreOk)).status = .running ∧
    (enableRawMode true false (initState dev restoreOk)).err = [] ∧
    (enableRawMode true false (initState dev restoreOk)).device = dev := by
  simp [enableRawMode, initState]

/-- Claim C5: from any running point of the loop, reading byte 0x71
appends exactly the line "113 (\x27q\x27)\r\n" to the output, consumes no
further events, and exits the process with status 0 (the restoring apply
at exit succeeding). -/
theorem quit_byte_line_and_exit (s : MState) (rest : List ReadEvent)
    (h : s.status = .running) (hr : s.restoreOk = true) :
    (rest.foldl loopStep (loopStep s (.byte 113))).out = s.out ++ ["113 (\x27q\x27)\r\n"] ∧
    (rest.foldl loopStep (loopStep s (.byte 113))).status = .exited 0 := by
  have h113 : (charOfByte 113 == 113) = true := by decide
  have hline : formatLine 113 = "113 (\x27q\x27)\r\n" := by decide
  have hstep : loopStep s (.byte 113) = procExit 0 { s with out := s.out ++ [formatLine 113] } := by
    simp [loopStep, h, h113]
  rw [hstep]
  have hx : (procExit 0 { s with out := s.out ++ [formatLine 113] }).status = .exited 0 :=
    procExit_status 0 _ (by simp [hr])
  rw [foldl_loopStep_exited _ _ 0 hx]
  refine ⟨?_, hx⟩
  rw [procExit_out]
  simp [hline]

/-- Witness for C5 at a concrete state and trailing event list. -/
theorem quit_byte_line_and_exit_witness :
    (([ReadEvent.timeout]).foldl loopStep
        (loopStep (enableRawMode true true (initState sampleT true)) (.byte 113))).out =
      (enableRawMode true true (initState sampleT true)).out ++ ["113 (\x27q\x27)\r\n"] ∧
    (([ReadEvent.timeout]).foldl loopStep
        (loopStep (enableRawMode true true (initState sampleT true)) (.byte 113))).status =
      .exited 0 :=
  quit_byte_line_and_exit (enableRawMode true true (initState sampleT true))
    [ReadEvent.timeout] (by decide) (by decide)

/-- Claim C7: a transient try-again read failure and a timed-out read are
recovered locally (the process keeps running and no diagnostic is
printed), while any other read failure prints the single diagnostic
context "read" and exits the process with status 1. -/
theorem read_failure_classification (s : MState) (h : s.status = .running)
    (hr : s.restoreOk = true) :
    ((loopStep s .eagain).status = .running ∧ (loopStep s .eagain).err = s.err) ∧
    ((loopStep s .timeout).status = .running ∧ (loopStep s .timeout).err = s.err) ∧
    ((loopStep s .fatal).status = .exited 1 ∧ (loopStep s .fatal).err = s.err ++ ["read"]) := by
  have h0 : (charOfByte 0 == 113) = false := by decide
  have hstepf : loopStep s .fatal = procExit 1 { s with err := s.err ++ ["read"] } := by
    simp [loopStep, h, die]
  refine ⟨⟨?_, ?_⟩, ⟨?_, ?_⟩, ?_, ?_⟩
  · simp [loopStep, h, h0]
  · simp [loopStep, h, h0]
  · simp [loopStep, h, h0]
  · simp [loopStep, h, h0]
  · rw [hstepf]; exact procExit_status 1 _ (by simp [hr])
  · rw [hstepf, procExit_err 1 _ (by simp [hr])]

/-- Process exit never touches the global `orig_termios`. -/
lemma procExit_orig (code : Nat) (s : MState) :
    (procExit code s).orig_termios = s.orig_termios := by
  unfold procExit; split_ifs <;> rfl

/-- No loop iteration ever mutates the global `orig_termios`: the
raw-mode derivation worked on a local copy, and the loop body only
appends output, appends diagnostics, or exits. -/
lemma loopStep_orig (s : MState) (ev : ReadEvent) :
    (loopStep s ev).orig_termios = s.orig_termios := by
  cases hst : s.status with
  | exited c => rw [loopStep_exited s ev c hst]
  | running =>
    have h0 : (charOfByte 0 == 113) = false := by decide
    cases ev with
    | fatal =>
      have hstep : loopStep s .fatal = procExit 1 { s with err := s.err ++ ["read"] } := by
        simp [loopStep, hst, die]
      rw [hstep, procExit_orig]
    | timeout =>
      have hstep : loopStep s .timeout = { s with out := s.out ++ [formatLine 0] } := by
        simp [loopStep, hst, h0]
      rw [hstep]
    | eagain =>
      have hstep : loopStep s .eagain = { s with out := s.out ++ [formatLine 0] } := by
        simp [loopStep, hst, h0]
      rw [hstep]
    | byte b =>
      cases hq : (charOfByte b == 113) with
      | true =>
        have hstep : loopStep s (.byte b) =
            procExit 0 { s with out := s.out ++ [formatLine b] } := by
          simp [loopStep, hst, hq]
        rw [hstep, procExit_orig]
      | false =>
        have hstep : loopStep s (.byte b) = { s with out := s.out ++ [formatLine b] } := by
          simp [loopStep, hst, hq]
        rw [hstep]

/-- The sequence of machine states traversed by a run: the state right
after `enableRawMode` returns, then the state after each loop
iteration. -/
def mainTrace (w : World) : List MState :=
  List.scanl loopStep (enableRawMode w.getOk w.setOk (initState w.dev w.restoreOk)) w.events

/-- Along any loop execution, every traversed state carries the
`orig_termios` of the starting state. -/
lemma scanl_orig (events : List ReadEvent) :
    ∀ s0 s : MState, s ∈ List.scanl loopStep s0 events →
      s.orig_termios = s0.orig_termios := by
  induction events with
  | nil =>
    intro s0 s hm
    rw [List.scanl_nil] at hm
    simp at hm
    rw [hm]
  | cons ev l ih =>
    intro s0 s hm
    rw [List.scanl_cons] at hm
    simp at hm
    rcases hm with rfl | hm
    · rfl
    · rw [ih _ s hm, loopStep_orig]

/-- Claim C10: once `enableRawMode` has captured the baseline into the
global `orig_termios` (a successful query), no later operation mutates
it: at every subsequent point of the run — after `enableRawMode` returns
and after each loop iteration, including the iterations that exit and run
the restore handler — `orig_termios` still equals the snapshot captured
at entry, i.e. the device configuration the run started with. -/
theorem orig_termios_never_mutated (w : World) (hg : w.getOk = true) (s : MState)
    (hs : s ∈ mainTrace w) : s.orig_termios = w.dev := by
  rw [scanl_orig w.events _ s hs, hg]
  cases hset : w.setOk <;> rfl

/-- Witness for C10: the final state of a concrete run still holds the
captured snapshot. -/
theorem orig_termios_never_mutated_witness :
    (mainRun ⟨sampleT, true, true, true, [ReadEvent.byte 113]⟩).orig_termios = sampleT :=
  orig_termios_never_mutated ⟨sampleT, true, true, true, [ReadEvent.byte 113]⟩ rfl
    (mainRun ⟨sampleT, true, true, true, [ReadEvent.byte 113]⟩) (by decide)

/-- Complementing a mask and testing a bit below the 32-bit width negates
the mask's bit. -/
lemma testBit_bitnot (m i : Nat) (hi : i < 32) :
    (bitnot m).testBit i = !(Nat.testBit m i) := by
  unfold bitnot mask32
  rw [Nat.testBit_xor, Nat.testBit_two_pow_sub_one]
  simp [hi]

/-- Bit decomposition of the input-flag clear mask
`BRKINT | ICRNL | INPCK | ISTRIP | IXON = 1330`. -/
lemma testBit_c1330 (i : Nat) :
    Nat.testBit 1330 i = decide (i = 1 ∨ i = 4 ∨ i = 5 ∨ i = 8 ∨ i = 10) := by
  rcases Nat.lt_or_ge i 11 with h | h
  · interval_cases i <;> decide
  · have h2 : (1330 : Nat) < 2 ^ i :=
      lt_of_lt_of_le (by norm_num) (Nat.pow_le_pow_right (by norm_num) h)
    rw [Nat.testBit_eq_false_of_lt h2]
    symm
    rw [decide_eq_false_iff_not]
    omega

/-- Bit decomposition of the output-flag clear mask `OPOST = 1`. -/
lemma testBit_c1 (i : Nat) : Nat.testBit 1 i = decide (i = 0) := by
  rcases Nat.lt_or_ge i 1 with h | h
  · interval_cases i
    decide
  · have h2 : (1 : Nat) < 2 ^ i :=
      lt_of_lt_of_le (by norm_num) (Nat.pow_le_pow_right (by norm_num) h)
    rw [Nat.testBit_eq_false_of_lt h2]
    symm
    rw [decide_eq_false_iff_not]
    omega

/-- Bit decomposition of the character-size set mask `CS8 = 48`. -/
lemma testBit_c48 (i : Nat) : Nat.testBit 48 i = decide (i = 4 ∨ i = 5) := by
  rcases Nat.lt_or_ge i 6 with h | h
  · interval_cases i <;> decide
  · have h2 : (48 : Nat) < 2 ^ i :=
      lt_of_lt_of_le (by norm_num) (Nat.pow_le_pow_right (by norm_num) h)
    rw [Nat.testBit_eq_false_of_lt h2]
    symm
    rw [decide_eq_false_iff_not]
    omega

/-- Bit decomposition of the local-flag clear mask
`ECHO | ICANON | IEXTEN | ISIG = 32779`. -/
lemma testBit_c32779 (i : Nat) :
    Nat.testBit 32779 i = decide (i = 0 ∨ i = 1 ∨ i = 3 ∨ i = 15) := by
  rcases Nat.lt_or_ge i 16 with h | h
  · interval_cases i <;> decide
  · have h2 : (32779 : Nat) < 2 ^ i :=
      lt_of_lt_of_le (by norm_num) (Nat.pow_le_pow_right (by norm_num) h)
    rw [Nat.testBit_eq_false_of_lt h2]
    symm
    rw [decide_eq_false_iff_not]
    omega

/-- Claim C9: relative to the baseline, the derived raw configuration
changes exactly the stated items.  On Linux the named flags occupy these
bit positions — `c_iflag`: BRKINT = bit 1, INPCK = bit 4, ISTRIP = bit 5,
ICRNL = bit 8, IXON = bit 10, all cleared; `c_oflag`: OPOST = bit 0,
cleared; `c_cflag`: CS8 = bits 4 and 5, set (character size forced to
8 bits); `c_lflag`: ISIG = bit 0, ICANON = bit 1, ECHO = bit 3,
IEXTEN = bit 15, all cleared.  Every other bit of each flag word is
preserved.  `c_cc[VMIN]` becomes 0 (no minimum byte count before a read
may return) and `c_cc[VTIME]` becomes 1, counted in tenths of a second,
i.e. a maximum wait of one tenth of a second; every other control
character is preserved. -/
theorem raw_attr_derivation (t : Termios) (ht : t.wf) (i : Nat) (hi : i < 32)
    (j : Nat) (hjt : j ≠ VTIME) (hjm : j ≠ VMIN) :
    (rawOf t).c_iflag.testBit i =
        (t.c_iflag.testBit i && !decide (i = 1 ∨ i = 4 ∨ i = 5 ∨ i = 8 ∨ i = 10)) ∧
    (rawOf t).c_oflag.testBit i = (t.c_oflag.testBit i && !decide (i = 0)) ∧
    (rawOf t).c_cflag.testBit i = (t.c_cflag.testBit i || decide (i = 4 ∨ i = 5)) ∧
    (rawOf t).c_lflag.testBit i =
        (t.c_lflag.testBit i && !decide (i = 0 ∨ i = 1 ∨ i = 3 ∨ i = 15)) ∧
    (rawOf t).c_cc[VMIN]? = some 0 ∧
    (rawOf t).c_cc[VTIME]? = some 1 ∧
    (rawOf t).c_cc[j]? = t.c_cc[j]? := by
  obtain ⟨-, -, -, -, hlen⟩ := ht
  have hm1 : BRKINT ||| ICRNL ||| INPCK ||| ISTRIP ||| IXON = 1330 := by decide
  have hm2 : ECHO ||| ICANON ||| IEXTEN ||| ISIG = 32779 := by decide
  refine ⟨?_, ?_, ?_, ?_, ?_, ?_, ?_⟩
  · show (t.c_iflag &&& bitnot (BRKINT ||| ICRNL ||| INPCK ||| ISTRIP ||| IXON)).testBit i = _
    rw [hm1, Nat.testBit_land, testBit_bitnot 1330 i hi, testBit_c1330]
  · show (t.c_oflag &&& bitnot OPOST).testBit i = _
    rw [show OPOST = 1 from rfl, Nat.testBit_land, testBit_bitnot 1 i hi, testBit_c1]
  · show (t.c_cflag ||| CS8).testBit i = _
    rw [show CS8 = 48 from rfl, Nat.testBit_lor, testBit_c48]
  · show (t.c_lflag &&& bitnot (ECHO ||| ICANON ||| IEXTEN ||| ISIG)).testBit i = _
    rw [hm2, Nat.testBit_land, testBit_bitnot 32779 i hi, testBit_c32779]
  · show ((t.c_cc.set VMIN 0).set VTIME 1)[VMIN]? = some 0
    rw [List.getElem?_set_ne (by decide : VTIME ≠ VMIN)]
    exact List.getElem?_set_self (by rw [hlen]; decide)
  · show ((t.c_cc.set VMIN 0).set VTIME 1)[VTIME]? = some 1
    exact List.getElem?_set_self (by rw [List.length_set, hlen]; decide)
  · show ((t.c_cc.set VMIN 0).set VTIME 1)[j]? = t.c_cc[j]?
    rw [List.getElem?_set_ne (Ne.symm hjt), List.getElem?_set_ne (Ne.symm hjm)]

/-- Witness for C9 at a concrete baseline, bit 3 and preserved control
character 0. -/
theorem raw_attr_derivation_witness :
    (rawOf sampleT).c_iflag.testBit 3 =
        (sampleT.c_iflag.testBit 3 && !decide (3 = 1 ∨ 3 = 4 ∨ 3 = 5 ∨ 3 = 8 ∨ 3 = 10)) ∧
    (rawOf sampleT).c_oflag.testBit 3 = (sampleT.c_oflag.testBit 3 && !decide (3 = 0)) ∧
    (rawOf sampleT).c_cflag.testBit 3 =
        (sampleT.c_cflag.testBit 3 || decide (3 = 4 ∨ 3 = 5)) ∧
    (rawOf sampleT).c_lflag.testBit 3 =
        (sampleT.c_lflag.testBit 3 && !decide (3 = 0 ∨ 3 = 1 ∨ 3 = 3 ∨ 3 = 15)) ∧
    (rawOf sampleT).c_cc[VMIN]? = some 0 ∧
    (rawOf sampleT).c_cc[VTIME]? = some 1 ∧
    (rawOf sampleT).c_cc[0]? = sampleT.c_cc[0]? :=
  raw_attr_derivation sampleT (by decide) 3 (by decide) 0 (by decide) (by decide)

/-- The per-byte line format the claim describes, written from the
claim's words for the refinement comparison: for a control
(non-printable) byte the decimal value of the byte followed by CR-LF,
otherwise the decimal value, a space, and the character in parenthesized
single quotes followed by CR-LF. -/
def specLineFor (b : Nat) : String :=
  if b < 32 ∨ b = 127 then
    toString b ++ "\r\n"
  else
    toString b ++ " (" ++ String.mk [quoteChar, Char.ofNat b, quoteChar] ++ ")\r\n"

/-- Claim C6 counterexample: byte 0xFF is stored in a signed char, so the
loop prints "-1 (\x27ÿ\x27)\r\n", not a line showing the byte's decimal
value 255 — the claimed format is wrong for bytes at or above 0x80. -/
theorem byte_line_format_cex :
    (mainRun ⟨sampleT, true, true, true, [ReadEvent.byte 255]⟩).out =
      ["-1 (\x27\xff\x27)\r\n"] ∧
    (mainRun ⟨sampleT, true, true, true, [ReadEvent.byte 255]⟩).out ≠ [specLineFor 255] := by
  decide

/-- The C classification of a 7-bit byte read into a char: `iscntrl`
holds exactly on 0..31 and 127. -/
lemma iscntrl_nat (b : Nat) : iscntrl (b : Int) = true ↔ (b < 32 ∨ b = 127) := by
  simp only [iscntrl, Bool.or_eq_true, Bool.and_eq_true, decide_eq_true_eq, beq_iff_eq]
  omega

/-- For 7-bit bytes the printed line agrees with the claimed format. -/
lemma formatLine_eq_specLineFor (b : Nat) (hb : b < 128) : formatLine b = specLineFor b := by
  have hm : b % 256 = b := Nat.mod_eq_of_lt (by omega)
  have hco : charOfByte b = (b : Int) := by
    unfold charOfByte
    rw [if_pos (show b % 256 < 128 by omega)]
    omega
  have hts : toString (b : Int) = toString b := rfl
  unfold formatLine specLineFor
  rw [hco, hm, hts]
  by_cases hc : b < 32 ∨ b = 127
  · rw [(iscntrl_nat b).mpr hc]
    simp [hc]
  · have h1 : iscntrl (b : Int) = false := by
      rcases Bool.eq_false_or_eq_true (iscntrl (b : Int)) with h | h
      · exact absurd ((iscntrl_nat b).mp h) hc
      · exact h
    rw [h1]
    simp [hc]

/-- Claim C6 amended: for every 7-bit byte b delivered by a read, the
loop emits exactly the line of the claimed format — the decimal value
followed by CR-LF when b is a control byte (0..31 or 127), and the
decimal value, a space and the parenthesized quoted character otherwise.
Bytes at or above 0x80 are excluded: they are read into a signed char, so
the printed decimal is b - 256 (see the counterexample at 0xFF). -/
theorem byte_line_matches_spec_format (s : MState) (b : Nat) (h : s.status = .running)
    (hb : b < 128) : (loopStep s (.byte b)).out = s.out ++ [specLineFor b] := by
  cases hq : (charOfByte b == 113) with
  | true =>
    have hstep : loopStep s (.byte b) =
        procExit 0 { s with out := s.out ++ [formatLine b] } := by
      simp [loopStep, h, hq]
    rw [hstep, procExit_out]
    simp [formatLine_eq_specLineFor b hb]
  | false =>
    have hstep : loopStep s (.byte b) = { s with out := s.out ++ [formatLine b] } := by
      simp [loopStep, h, hq]
    rw [hstep]
    simp [formatLine_eq_specLineFor b hb]

/-- Witness for C6 amended at the claim's own printable example 0x41. -/
theorem byte_line_matches_spec_format_witness :
    (loopStep (enableRawMode true true (initState sampleT true)) (.byte 65)).out =
      (enableRawMode true true (initState sampleT true)).out ++ [specLineFor 65] :=
  byte_line_matches_spec_format (enableRawMode true true (initState sampleT true)) 65
    (by decide) (by decide)

/-- Witness for C7 at a concrete running state. -/
theorem read_failure_classification_witness :
    ((loopStep (enableRawMode true true (initState sampleT true)) .eagain).status = .running ∧
      (loopStep (enableRawMode true true (initState sampleT true)) .eagain).err =
        (enableRawMode true true (initState sampleT true)).err) ∧
    ((loopStep (enableRawMode true true (initState sampleT true)) .timeout).status = .running ∧
      (loopStep (enableRawMode true true (initState sampleT true)) .timeout).err =
        (enableRawMode true true (initState sampleT true)).err) ∧
    ((loopStep (enableRawMode true true (initState sampleT true)) .fatal).status = .exited 1 ∧
      (loopStep (enableRawMode true true (initState sampleT true)) .fatal).err =
        (enableRawMode true true (initState sampleT true)).err ++ ["read"]) :=
  read_failure_classification (enableRawMode true true (initState sampleT true))
    (by decide) (by decide)
